import Mathlib

/-!
Shallow embedding of the photosync repository (monkeynova/photosync).

Source files embedded here:
  * `src/photosync/models/photo.py`        — the Photo entity model and its
    dict (de)serialization;
  * `src/photosync/models/photo_manager.py`— the metadata repository
    (validation, save, load, duplicate detection, cache);
  * `src/photosync/cli.py`                 — the discovery orchestrator
    (`PhotoSyncCLI.discover_photos`, lines 325-428).

Conventions of the embedding:
  * Python `datetime` values are the record `DateTime` below; the pair
    `isoformat` / `fromisoformat` is the identity embedding on that record
    (for naive datetimes the pair is mutually inverse, so dict slots that
    hold an ISO string hold the `DateTime` value directly as `Option DateTime`,
    `none` being JSON null).
  * Python dicts with string keys are insertion-ordered association lists.
  * Python `Any` values (free-form JSON passed through untouched) are the
    inductive `PyValue`.
  * Enum constructors applied to a string (`PhotoQuality(s)` etc.) raise
    `ValueError` on an unknown tag, hence embed as `Option`-returning
    `ofValue` functions.
  * Wall-clock reads (`datetime.now()`) are injected as explicit arguments
    (a monotone `Nat` clock in the orchestrator).
-/

/-- Python `datetime` (naive or UTC): the fields that `isoformat` prints. -/
structure DateTime where
  year : Nat
  month : Nat
  day : Nat
  hour : Nat := 0
  minute : Nat := 0
  second : Nat := 0
  microsecond : Nat := 0
deriving DecidableEq, Repr

/-- Free-form JSON-like values (`Any` in the Python type hints); carried
through (de)serialization untouched. -/
inductive PyValue where
  | null : PyValue
  | bool : Bool → PyValue
  | int : Int → PyValue
  | str : String → PyValue
  | list : List PyValue → PyValue
  | dict : List (String × PyValue) → PyValue

/-- `class ProcessingState(Enum)` — photo.py lines 13-17. -/
inductive ProcessingState where
  | DISCOVERED
  | RESOLVED
  | REPLICATED
deriving DecidableEq, Repr

/-- `.value` of a `ProcessingState` member. -/
def ProcessingState.value : ProcessingState → String
  | .DISCOVERED => "discovered"
  | .RESOLVED => "resolved"
  | .REPLICATED => "replicated"

/-- `ProcessingState(s)`: enum lookup by value; `ValueError` becomes `none`. -/
def ProcessingState.ofValue : String → Option ProcessingState
  | "discovered" => some .DISCOVERED
  | "resolved" => some .RESOLVED
  | "replicated" => some .REPLICATED
  | _ => none

/-- `class VisibilityLevel(Enum)` — photo.py lines 19-23. -/
inductive VisibilityLevel where
  | PRIVATE
  | FRIENDS
  | PUBLIC
deriving DecidableEq, Repr

def VisibilityLevel.value : VisibilityLevel → String
  | .PRIVATE => "private"
  | .FRIENDS => "friends"
  | .PUBLIC => "public"

def VisibilityLevel.ofValue : String → Option VisibilityLevel
  | "private" => some .PRIVATE
  | "friends" => some .FRIENDS
  | "public" => some .PUBLIC
  | _ => none

/-- `class PhotoQuality(Enum)` — photo.py lines 25-30. -/
inductive PhotoQuality where
  | ORIGINAL
  | HIGH
  | MEDIUM
  | LOW
deriving DecidableEq, Repr

def PhotoQuality.value : PhotoQuality → String
  | .ORIGINAL => "original"
  | .HIGH => "high"
  | .MEDIUM => "medium"
  | .LOW => "low"

def PhotoQuality.ofValue : String → Option PhotoQuality
  | "original" => some .ORIGINAL
  | "high" => some .HIGH
  | "medium" => some .MEDIUM
  | "low" => some .LOW
  | _ => none

/-- `@dataclass ServiceInstance` — photo.py lines 32-38. -/
structure ServiceInstance where
  id : String
  quality : PhotoQuality := .ORIGINAL
  last_sync : Option DateTime := none
  url : Option String := none
deriving DecidableEq, Repr

/-- The dictionary shape `ServiceInstance.to_dict` produces (all four keys
always present; optional values may be JSON null). -/
structure ServiceInstanceDict where
  id : String
  quality : String
  last_sync : Option DateTime
  url : Option String
deriving DecidableEq, Repr

/-- `ServiceInstance.to_dict` — photo.py lines 40-47. -/
def ServiceInstance.to_dict (s : ServiceInstance) : ServiceInstanceDict :=
  { id := s.id
    quality := s.quality.value
    last_sync := s.last_sync
    url := s.url }

/-- `ServiceInstance.from_dict` — photo.py lines 49-57. `PhotoQuality(...)`
can raise, so the result is optional. -/
def ServiceInstance.from_dict (d : ServiceInstanceDict) : Option ServiceInstance :=
  match PhotoQuality.ofValue d.quality with
  | none => none
  | some q => some { id := d.id, quality := q, last_sync := d.last_sync, url := d.url }

/-- `@dataclass Location` — photo.py lines 59-64. -/
structure Location where
  lat : Float
  lng : Float
  address : Option String := none

/-- `Location.to_dict` / `Location.from_dict` are a field-for-field copy
(photo.py lines 66-79); the dict shape equals the dataclass shape. -/
structure LocationDict where
  lat : Float
  lng : Float
  address : Option String

def Location.to_dict (l : Location) : LocationDict :=
  { lat := l.lat, lng := l.lng, address := l.address }

def Location.from_dict (d : LocationDict) : Location :=
  { lat := d.lat, lng := d.lng, address := d.address }

/-- `@dataclass CameraInfo` — photo.py lines 81-86. `settings` is a free-form
`Dict[str, Any]`. -/
structure CameraInfo where
  make : Option String := none
  model : Option String := none
  settings : Option (List (String × PyValue)) := none

structure CameraInfoDict where
  make : Option String
  model : Option String
  settings : Option (List (String × PyValue))

/-- `CameraInfo.to_dict` — photo.py lines 88-93. -/
def CameraInfo.to_dict (c : CameraInfo) : CameraInfoDict :=
  { make := c.make, model := c.model, settings := c.settings }

/-- `CameraInfo.from_dict` — photo.py lines 95-101. -/
def CameraInfo.from_dict (d : CameraInfoDict) : CameraInfo :=
  { make := d.make, model := d.model, settings := d.settings }

/-- `@dataclass PhotoMetadata` — photo.py lines 103-113. -/
structure PhotoMetadata where
  taken_date : Option DateTime := none
  filename : Option String := none
  location : Option Location := none
  tags : List String := []
  caption : Option String := none
  camera_info : Option CameraInfo := none
  dimensions : Option (List (String × Int)) := none
  file_size : Option Int := none

/-- The dictionary shape `PhotoMetadata.to_dict` produces. -/
structure PhotoMetadataDict where
  taken_date : Option DateTime
  filename : Option String
  location : Option LocationDict
  tags : List String
  caption : Option String
  camera_info : Option CameraInfoDict
  dimensions : Option (List (String × Int))
  file_size : Option Int

/-- `PhotoMetadata.to_dict` — photo.py lines 115-125. -/
def PhotoMetadata.to_dict (m : PhotoMetadata) : PhotoMetadataDict :=
  { taken_date := m.taken_date
    filename := m.filename
    location := m.location.map Location.to_dict
    tags := m.tags
    caption := m.caption
    camera_info := m.camera_info.map CameraInfo.to_dict
    dimensions := m.dimensions
    file_size := m.file_size }

/-- `PhotoMetadata.from_dict` — photo.py lines 127-138 (the truthiness guards
`if data.get("location")` etc. test a dict that, when present, is non-empty,
hence reduce to presence tests). -/
def PhotoMetadata.from_dict (d : PhotoMetadataDict) : PhotoMetadata :=
  { taken_date := d.taken_date
    filename := d.filename
    location := d.location.map Location.from_dict
    tags := d.tags
    caption := d.caption
    camera_info := d.camera_info.map CameraInfo.from_dict
    dimensions := d.dimensions
    file_size := d.file_size }

/-- `@dataclass VisibilityDiscrepancy` — photo.py lines 140-145. -/
structure VisibilityDiscrepancy where
  service : String
  current : VisibilityLevel
  canonical : VisibilityLevel
deriving DecidableEq, Repr

structure VisibilityDiscrepancyDict where
  service : String
  current : String
  canonical : String
deriving DecidableEq, Repr

/-- `VisibilityDiscrepancy.to_dict` — photo.py lines 147-152. -/
def VisibilityDiscrepancy.to_dict (v : VisibilityDiscrepancy) : VisibilityDiscrepancyDict :=
  { service := v.service, current := v.current.value, canonical := v.canonical.value }

/-- `VisibilityDiscrepancy.from_dict` — photo.py lines 154-160. -/
def VisibilityDiscrepancy.from_dict (d : VisibilityDiscrepancyDict) :
    Option VisibilityDiscrepancy :=
  match VisibilityLevel.ofValue d.current, VisibilityLevel.ofValue d.canonical with
  | some cur, some can => some { service := d.service, current := cur, canonical := can }
  | _, _ => none

/-- `@dataclass PhotoVisibility` — photo.py lines 162-167. -/
structure PhotoVisibility where
  canonical : VisibilityLevel := .PRIVATE
  per_service : List (String × VisibilityLevel) := []
  discrepancies : List VisibilityDiscrepancy := []
deriving DecidableEq, Repr

structure PhotoVisibilityDict where
  canonical : String
  per_service : List (String × String)
  discrepancies : List VisibilityDiscrepancyDict
deriving DecidableEq, Repr

/-- `PhotoVisibility.to_dict` — photo.py lines 169-174. -/
def PhotoVisibility.to_dict (v : PhotoVisibility) : PhotoVisibilityDict :=
  { canonical := v.canonical.value
    per_service := v.per_service.map (fun kv => (kv.1, kv.2.value))
    discrepancies := v.discrepancies.map VisibilityDiscrepancy.to_dict }

/-- `PhotoVisibility.from_dict` — photo.py lines 176-182. Each enum lookup can
raise, so the whole parse is optional. -/
def PhotoVisibility.from_dict (d : PhotoVisibilityDict) : Option PhotoVisibility := do
  let canonical ← VisibilityLevel.ofValue d.canonical
  let per_service ← d.per_service.mapM
    (fun kv => (VisibilityLevel.ofValue kv.2).map (fun v => (kv.1, v)))
  let discrepancies ← d.discrepancies.mapM VisibilityDiscrepancy.from_dict
  some { canonical := canonical, per_service := per_service, discrepancies := discrepancies }

/-- `@dataclass PhotoConflict` — photo.py lines 184-191. `details` is a
free-form `Dict[str, Any]`. -/
structure PhotoConflict where
  type : String
  description : String
  services : List String
  resolution_required : Bool := true
  details : Option (List (String × PyValue)) := none

structure PhotoConflictDict where
  type : String
  description : String
  services : List String
  resolution_required : Bool
  details : Option (List (String × PyValue))

/-- `PhotoConflict.to_dict` — photo.py lines 193-200. -/
def PhotoConflict.to_dict (c : PhotoConflict) : PhotoConflictDict :=
  { type := c.type
    description := c.description
    services := c.services
    resolution_required := c.resolution_required
    details := c.details }

/-- `PhotoConflict.from_dict` — photo.py lines 202-210. -/
def PhotoConflict.from_dict (d : PhotoConflictDict) : PhotoConflict :=
  { type := d.type
    description := d.description
    services := d.services
    resolution_required := d.resolution_required
    details := d.details }

/-- File paths (`pathlib.Path`) as component lists; `a / b` is append. -/
abbrev FsPath := List String

/-- Python string truthiness applied by `x or fallback` on an optional
string argument (`photo_id or str(uuid.uuid4())`): the empty string is
falsy. -/
def pyOr (s : Option String) (fallback : String) : String :=
  match s with
  | some v => if v = "" then fallback else v
  | none => fallback

/-- Python dict assignment `d[k] = v` on an insertion-ordered dict: replace
in place when the key exists, append otherwise. -/
def dictInsert [DecidableEq κ] (d : List (κ × α)) (k : κ) (v : α) : List (κ × α) :=
  if d.any (fun kv => kv.1 = k) then
    d.map (fun kv => if kv.1 = k then (k, v) else kv)
  else d ++ [(k, v)]

/-- `class Photo` — photo.py lines 212-236. -/
structure Photo where
  photo_id : String
  content_hash : Option String := none
  canonical_source : Option String := none
  source_of_truth_path : Option String := none
  instances : List (String × ServiceInstance) := []
  metadata : PhotoMetadata := {}
  visibility : PhotoVisibility := {}
  processing_state : ProcessingState := .DISCOVERED
  conflicts : List PhotoConflict := []
  created_at : DateTime
  updated_at : DateTime

/-- `Photo.__init__` — photo.py lines 218-236. `freshId` stands for the
`str(uuid.uuid4())` draw and `now` for `datetime.now()` (both calls return
the same value within the constructor body up to microseconds; we model the
two `now()` calls as one instant). -/
def Photo.init (freshId : String) (now : DateTime)
    (photo_id : Option String := none) (content_hash : Option String := none)
    (canonical_source : Option String := none)
    (source_of_truth_path : Option String := none) : Photo :=
  { photo_id := pyOr photo_id freshId
    content_hash := content_hash
    canonical_source := canonical_source
    source_of_truth_path := source_of_truth_path
    instances := []
    metadata := {}
    visibility := {}
    processing_state := .DISCOVERED
    conflicts := []
    created_at := now
    updated_at := now }

/-- `Photo.add_conflict` — photo.py lines 249-252. -/
def Photo.add_conflict (p : Photo) (conflict : PhotoConflict) (now : DateTime) : Photo :=
  { p with conflicts := p.conflicts ++ [conflict], updated_at := now }

/-- Replace the element at an index, leaving the list unchanged when the
index is out of range. -/
def modifyIdx : List α → Nat → (α → α) → List α
  | [], _, _ => []
  | a :: as, 0, f => f a :: as
  | a :: as, n + 1, f => a :: modifyIdx as n f

/-- `Photo.resolve_conflict` — photo.py lines 254-258. The Python index is a
signed `int`; the guard `0 <= conflict_index < len(self.conflicts)` makes
out-of-range calls silent no-ops. -/
def Photo.resolve_conflict (p : Photo) (conflict_index : Int) (now : DateTime) : Photo :=
  if 0 ≤ conflict_index ∧ conflict_index < (p.conflicts.length : Int) then
    { p with
        conflicts := modifyIdx p.conflicts conflict_index.toNat
          (fun c => { c with resolution_required := false })
        updated_at := now }
  else p

/-- `Photo.has_unresolved_conflicts` — photo.py lines 260-262. -/
def Photo.has_unresolved_conflicts (p : Photo) : Bool :=
  p.conflicts.any (fun c => c.resolution_required)

/-- `f"{month:02d}"` for the month field: zero-pad to two digits. -/
def month2 (m : Nat) : String :=
  if m < 10 then "0" ++ toString m else toString m

/-- `Photo.get_metadata_file_path` — photo.py lines 269-277. A `datetime`
object is always truthy, so `taken_date or created_at` is `Option.getD`. -/
def Photo.get_metadata_file_path (p : Photo) (base_path : FsPath) : FsPath :=
  let date_for_organization := p.metadata.taken_date.getD p.created_at
  base_path ++ ["photos", toString date_for_organization.year,
    month2 date_for_organization.month, p.photo_id ++ ".json"]

/-- The dictionary shape `Photo.to_dict` produces (every key present). -/
structure PhotoDict where
  photo_id : String
  content_hash : Option String
  canonical_source : Option String
  source_of_truth_path : Option String
  instances : List (String × ServiceInstanceDict)
  metadata : PhotoMetadataDict
  visibility : PhotoVisibilityDict
  processing_state : String
  conflicts : List PhotoConflictDict
  created_at : DateTime
  updated_at : DateTime

/-- `Photo.to_dict` — photo.py lines 279-293. -/
def Photo.to_dict (p : Photo) : PhotoDict :=
  { photo_id := p.photo_id
    content_hash := p.content_hash
    canonical_source := p.canonical_source
    source_of_truth_path := p.source_of_truth_path
    instances := p.instances.map (fun kv => (kv.1, kv.2.to_dict))
    metadata := p.metadata.to_dict
    visibility := p.visibility.to_dict
    processing_state := p.processing_state.value
    conflicts := p.conflicts.map PhotoConflict.to_dict
    created_at := p.created_at
    updated_at := p.updated_at }

/-- `Photo.from_dict` — photo.py lines 295-330. Builds a fresh Photo through
the constructor (hence `freshId`/`now` arguments for the `uuid4()` and
`datetime.now()` draws), then overwrites every field present in the dict;
on the full `to_dict` shape every `if "..." in data` guard is true. The
instance loop performs Python dict assignments, and enum parses can raise,
so the result is optional. -/
def Photo.from_dict (freshId : String) (now : DateTime) (d : PhotoDict) : Option Photo := do
  let photo := Photo.init freshId now (some d.photo_id) d.content_hash
    d.canonical_source d.source_of_truth_path
  let loaded ← d.instances.mapM
    (fun kv => (ServiceInstance.from_dict kv.2).map (fun v => (kv.1, v)))
  let instances := loaded.foldl (fun acc kv => dictInsert acc kv.1 kv.2) photo.instances
  let metadata := PhotoMetadata.from_dict d.metadata
  let visibility ← PhotoVisibility.from_dict d.visibility
  let processing_state ← ProcessingState.ofValue d.processing_state
  let conflicts := d.conflicts.map PhotoConflict.from_dict
  some { photo with
          instances := instances
          metadata := metadata
          visibility := visibility
          processing_state := processing_state
          conflicts := conflicts
          created_at := d.created_at
          updated_at := d.updated_at }

/-- Well-formedness every Photo built through the Python API enjoys: the
constructor never leaves `photo_id` empty (a UUID string or a truthy caller
string), and `instances` is a Python dict, so its keys are distinct. -/
def Photo.WF (p : Photo) : Prop :=
  p.photo_id ≠ "" ∧ (p.instances.map Prod.fst).Nodup

/-- What a path in the filesystem currently holds. `truncated` is the state
`open(path, 'w')` leaves behind before any bytes are flushed: the file
exists but holds no complete JSON document. -/
inductive FileContent where
  | truncated
  | doc (d : PhotoDict)

/-- The filesystem: a mapping from paths to file contents (directories are
implicit in the path components). -/
structure FS where
  files : List (FsPath × FileContent)

/-- The primitive filesystem operations `Photo.save_to_file` performs. -/
inductive FSEvent where
  | mkdirParents (dir : FsPath)
  | openTrunc (path : FsPath)
  | writeDoc (path : FsPath) (content : PhotoDict)
  | rename (src dst : FsPath)

def FS.lookup (fs : FS) (p : FsPath) : Option FileContent :=
  (fs.files.find? (fun kv => kv.1 = p)).map Prod.snd

def applyEvent (fs : FS) : FSEvent → FS
  | .mkdirParents _ => fs
  | .openTrunc p => ⟨dictInsert fs.files p .truncated⟩
  | .writeDoc p c => ⟨dictInsert fs.files p (.doc c)⟩
  | .rename src dst =>
      match fs.lookup src with
      | some c => ⟨dictInsert (fs.files.filter (fun kv => kv.1 ≠ src)) dst c⟩
      | none => fs

def applyEvents (fs : FS) (evs : List FSEvent) : FS :=
  evs.foldl applyEvent fs

/-- `Photo.save_to_file` — photo.py lines 332-338 — as the sequence of
filesystem operations it performs: create the parent directories, then
`open(file_path, 'w')` (which truncates/creates the file at its final
path), then `json.dump` the serialized photo into it. -/
def Photo.save_to_file_events (p : Photo) (base_path : FsPath) : List FSEvent :=
  let file_path := p.get_metadata_file_path base_path
  [.mkdirParents file_path.dropLast, .openTrunc file_path, .writeDoc file_path p.to_dict]

/-- The filesystem after `Photo.save_to_file` runs to completion. -/
def Photo.save_to_file (p : Photo) (base_path : FsPath) (fs : FS) : FS :=
  applyEvents fs (p.save_to_file_events base_path)

/-- A save is crash-safe at a photo's computed path when no interruption
point of its operation sequence leaves that path holding a truncated,
incompletely-written file (it holds either its previous content, nothing,
or the complete document). Write-temp-then-rename has this property; it is
the property §5 of the spec asserts for every save. -/
def crashSafeSave (p : Photo) (base_path : FsPath) (fs : FS) : Prop :=
  ∀ k : Nat,
    (applyEvents fs ((p.save_to_file_events base_path).take k)).lookup
        (p.get_metadata_file_path base_path) ≠ some .truncated

/-- `PhotoManager.__init__` — photo_manager.py lines 23-28: `schema` is
unset (no validation) and the photo cache empty. The loaded JSON schema is
abstracted as the error-list function `jsonschema.validate` induces on
serialized photos (empty list = valid). -/
structure PhotoManager where
  metadata_repo_path : FsPath
  schema : Option (PhotoDict → List String) := none
  photo_cache : List (String × Photo) := []

def PhotoManager.mk0 (metadata_repo_path : FsPath) : PhotoManager :=
  { metadata_repo_path := metadata_repo_path, schema := none, photo_cache := [] }

/-- `photos_dir` — photo_manager.py line 25. -/
def PhotoManager.photos_dir (m : PhotoManager) : FsPath :=
  m.metadata_repo_path ++ ["photos"]

/-- `PhotoManager.validate_photo` — photo_manager.py lines 59-73: with no
schema loaded validation is disabled and returns no errors; otherwise the
schema check runs on `photo.to_dict()`. -/
def PhotoManager.validate_photo (m : PhotoManager) (photo : Photo) : List String :=
  match m.schema with
  | none => []
  | some schema => schema photo.to_dict

/-- `PhotoManager.save_photo` — photo_manager.py lines 75-93: validate
unless disabled, returning `False` before any write when validation fails;
otherwise write the file and update the cache. (File writes in the
embedding always succeed, so the `except` branch of lines 91-93 has no
counterpart.) -/
def PhotoManager.save_photo (m : PhotoManager) (fs : FS) (photo : Photo)
    (validate : Bool := true) : Bool × PhotoManager × FS :=
  if validate && !(m.validate_photo photo).isEmpty then
    (false, m, fs)
  else
    let fs' := photo.save_to_file m.metadata_repo_path fs
    (true, { m with photo_cache := dictInsert m.photo_cache photo.photo_id photo }, fs')

/-- `Photo.load_from_file` — photo.py lines 340-345: read and parse the JSON
document at the path; a truncated/absent file or unparseable document is a
raised exception, i.e. `none`. -/
def Photo.load_from_file (fs : FS) (file_path : FsPath) (freshId : String)
    (now : DateTime) : Option Photo :=
  match fs.lookup file_path with
  | some (.doc d) => Photo.from_dict freshId now d
  | _ => none

/-- `s.endswith(t)` on the character sequences (the executable counterpart
of `String.endsWith`). -/
def strEndsWith (s suffix : String) : Bool :=
  suffix.data.isSuffixOf s.data

/-- `path.rglob("*.json")` relative to a directory: the path lies strictly
below the directory and its final component has the `.json` suffix. -/
def matchesJsonGlob (dir p : FsPath) : Bool :=
  dir.isPrefixOf p && dir.length < p.length &&
    (match p.getLast? with
     | some nm => strEndsWith nm ".json"
     | none => false)

/-- `PhotoManager.load_all_photos` — photo_manager.py lines 112-132: with
`use_cache` and a non-empty cache, return the cached photos untouched and
read nothing; otherwise clear the cache, scan every `photos/**/*.json`
file, skip the unreadable ones, and rebuild the cache. (A missing
`photos` directory yields the same empty scan as a directory with no
matching files.) -/
def PhotoManager.load_all_photos (m : PhotoManager) (fs : FS) (freshId : String)
    (now : DateTime) (use_cache : Bool := true) : List Photo × PhotoManager :=
  if use_cache && !m.photo_cache.isEmpty then
    (m.photo_cache.map Prod.snd, m)
  else
    let entries := fs.files.filter (fun kv => matchesJsonGlob m.photos_dir kv.1)
    let photos := entries.filterMap (fun kv => Photo.load_from_file fs kv.1 freshId now)
    (photos,
      { m with photo_cache := photos.foldl (fun acc ph => dictInsert acc ph.photo_id ph) [] })

/-- The body of the grouping loop of `PhotoManager.find_duplicates` —
photo_manager.py lines 213-217: `if photo.content_hash:` skips photos whose
hash is `None` *or* the empty string; otherwise the photo is appended to
its hash's group, the group being created (at dict insertion order) on
first sight. -/
def groupStep (acc : List (String × List Photo)) (photo : Photo) :
    List (String × List Photo) :=
  match photo.content_hash with
  | some h =>
      if h = "" then acc
      else if acc.any (fun kv => kv.1 = h) then
        acc.map (fun kv => if kv.1 = h then (kv.1, kv.2 ++ [photo]) else kv)
      else acc ++ [(h, [photo])]
  | none => acc

/-- The grouping loop of `PhotoManager.find_duplicates` — photo_manager.py
lines 211-217. -/
def groupByHash (photos : List Photo) : List (String × List Photo) :=
  photos.foldl groupStep []

/-- `PhotoManager.find_duplicates` — photo_manager.py lines 205-220 — on an
already-loaded collection: group by hash, then keep only the groups with
more than one member. -/
def find_duplicates_of (photos : List Photo) : List (String × List Photo) :=
  (groupByHash photos).filter (fun kv => kv.2.length > 1)

/-- `PhotoManager.find_duplicates` including the `load_all_photos()` call it
starts with. -/
def PhotoManager.find_duplicates (m : PhotoManager) (fs : FS) (freshId : String)
    (now : DateTime) : List (String × List Photo) × PhotoManager :=
  let (photos, m') := m.load_all_photos fs freshId now true
  (find_duplicates_of photos, m')

/-- Python truthiness of an optional string (`if since_arg:` /
`if last_discovery_str:`): `None` and the empty string are falsy. -/
def pyTruthy : Option String → Bool
  | some s => !(s == "")
  | none => false

/-- The orchestrator's wall clock is a monotone `Nat` instant counter;
`datetime.now(timezone.utc).isoformat()` renders the instant as a string. -/
def isoNat (t : Nat) : String := toString t

/-- The caller-side inputs of `PhotoSyncCLI.discover_photos`, together with
the two abstracted string-to-timestamp parsers: `parseSinceArg` embeds
`_parse_since_arg` (cli.py lines 305-323, `None` on an unparseable value)
and `parseIso` embeds `datetime.fromisoformat` (`None` standing for a
raised `ValueError`). -/
structure DiscoverArgs where
  parseSinceArg : String → Option Nat
  parseIso : String → Option Nat
  since_arg : Option String
  full_scan_arg : Bool

/-- The per-service `last_sync_time` computation — cli.py lines 377-401:
`full_scan_arg` is tested first and forces `None`; otherwise a truthy
`--since` argument is parsed (an unparseable one yields `None` without
falling back to the persisted state); otherwise the service's persisted
`last_discovery` is parsed when present (invalid format falling back to
`None`); otherwise `None` (first-ever scan). -/
def effectiveSince (a : DiscoverArgs) (last_discovery_str : Option String) : Option Nat :=
  if a.full_scan_arg then none
  else if pyTruthy a.since_arg then
    a.parseSinceArg (a.since_arg.getD "")
  else if pyTruthy last_discovery_str then
    a.parseIso (last_discovery_str.getD "")
  else none

/-- One service's record in `config/sync-state.json`'s `services` mapping. -/
structure SyncEntry where
  last_discovery : Option String := none
  last_discovered_count : Option Nat := none
deriving DecidableEq, Repr

/-- The sync-state document, restricted to the keys `discover_photos`
touches (`last_sync`, `total_photos` and `pending_conflicts` pass through
the run unchanged). -/
structure SyncState where
  services : List (String × SyncEntry) := []
  last_discovery : Option String := none

/-- `sync_state.get("services", {}).get(service_name, {})` — cli.py line
390: the service's entry, defaulting to an empty record. -/
def SyncState.serviceEntry (st : SyncState) (name : String) : SyncEntry :=
  ((st.services.find? (fun kv => kv.1 = name)).map Prod.snd).getD {}

/-- One invocation of a service adapter's `discover_photos` generator: the
photos it yielded, and whether it raised a terminal exception after
yielding them (aborting the iteration mid-scan). -/
structure AdapterRun where
  yielded : List Photo
  raised : Bool

/-- One enabled service as the orchestrator sees it: its name, its adapter
(a function of the `last_sync_time` passed to it), and the wall-clock time
the scan consumes before the checkpoint timestamp is taken. -/
structure ServiceJob where
  name : String
  adapter : Option Nat → AdapterRun
  elapsed : Nat

/-- The per-photo save loop — cli.py lines 406-412: each yielded photo is
saved through the repository (with validation); successes are counted
(`discovered_for_service`) and failures logged but not fatal. -/
def savePhotosLoop (mgr : PhotoManager) (fs : FS) (photos : List Photo) :
    PhotoManager × FS × Nat :=
  match photos with
  | [] => (mgr, fs, 0)
  | photo :: rest =>
    let r := mgr.save_photo fs photo true
    let k := savePhotosLoop r.2.1 r.2.2 rest
    (k.1, k.2.1, (if r.1 then 1 else 0) + k.2.2)

/-- The mutable state the discovery loop threads across services. -/
structure DiscoverAcc where
  mgr : PhotoManager
  fs : FS
  sync : SyncState
  t : Nat
  overall : Nat
  processedAny : Bool

/-- The body of the per-service loop — cli.py lines 368-421 — for a service
whose adapter exists: compute the effective since-timestamp, run the
adapter, save each yielded photo, and, only when the iteration completed
without raising, checkpoint the service's `last_discovery = now` and
`last_discovered_count` and add to the overall tally; a raised exception
leaves the sync state of that service untouched (saves already performed
are kept). -/
def stepService (a : DiscoverArgs) (acc : DiscoverAcc) (job : ServiceJob) : DiscoverAcc :=
  let entry := acc.sync.serviceEntry job.name
  let run := job.adapter (effectiveSince a entry.last_discovery)
  let saved := savePhotosLoop acc.mgr acc.fs run.yielded
  let t' := acc.t + job.elapsed
  if run.raised then
    { acc with mgr := saved.1, fs := saved.2.1, t := t' }
  else
    { mgr := saved.1
      fs := saved.2.1
      sync := { acc.sync with
                  services := dictInsert acc.sync.services job.name
                    { last_discovery := some (isoNat t')
                      last_discovered_count := some saved.2.2 } }
      t := t'
      overall := acc.overall + saved.2.2
      processedAny := true }

/-- The services loop of `discover_photos`. -/
def discoverLoop (a : DiscoverArgs) : DiscoverAcc → List ServiceJob → DiscoverAcc
  | acc, [] => acc
  | acc, job :: rest => discoverLoop a (stepService a acc job) rest

/-- Outcome of one discovery run; `persisted` is the content of
`config/sync-state.json` after the run (rewritten only when at least one
service was processed — cli.py lines 423-428). -/
structure DiscoverResult where
  mgr : PhotoManager
  fs : FS
  persisted : SyncState
  overall : Nat

/-- `PhotoSyncCLI.discover_photos` — cli.py lines 365-428 — once the
enabled services and their adapters are resolved: run the per-service
loop from clock instant `t0`, then, if any service completed, stamp the
repository-wide `last_discovery` (after a further `elapsedEnd` of wall
time) and persist; otherwise the persisted sync state is untouched. -/
def discover_photos (a : DiscoverArgs) (mgr : PhotoManager) (fs : FS)
    (sync0 : SyncState) (jobs : List ServiceJob) (t0 : Nat) (elapsedEnd : Nat) :
    DiscoverResult :=
  let acc := discoverLoop a ⟨mgr, fs, sync0, t0, 0, false⟩ jobs
  if acc.processedAny then
    { mgr := acc.mgr
      fs := acc.fs
      persisted := { acc.sync with last_discovery := some (isoNat (acc.t + elapsedEnd)) }
      overall := acc.overall }
  else
    { mgr := acc.mgr, fs := acc.fs, persisted := sync0, overall := acc.overall }

/-! ### Helper lemmas -/

theorem modifyIdx_getElem_self : ∀ (l : List α) (n : Nat) (f : α → α),
    (modifyIdx l n f)[n]? = l[n]?.map f
  | [], _, _ => by simp [modifyIdx]
  | _ :: _, 0, _ => by simp [modifyIdx]
  | _ :: as, n + 1, f => by
      simp [modifyIdx, modifyIdx_getElem_self as n f]

theorem modifyIdx_getElem_ne : ∀ (l : List α) (n j : Nat) (f : α → α), j ≠ n →
    (modifyIdx l n f)[j]? = l[j]?
  | [], _, _, _, _ => by simp [modifyIdx]
  | a :: as, 0, j, f, hj => by
      match j, hj with
      | j + 1, _ => simp [modifyIdx]
  | a :: as, n + 1, 0, f, hj => by simp [modifyIdx]
  | a :: as, n + 1, j + 1, f, hj => by
      have : j ≠ n := by omega
      simp [modifyIdx, modifyIdx_getElem_ne as n j f this]

theorem string_append_right_cancel {s t : String} (u : String)
    (h : s ++ u = t ++ u) : s = t := by
  have hd : s.data ++ u.data = t.data ++ u.data := by
    rw [← String.data_append, ← String.data_append, h]
  cases s; cases t
  simp_all

/-! ### Shared concrete sample values for witnesses and counterexamples -/

def dtW : DateTime := ⟨2024, 3, 15, 0, 0, 0, 0⟩

def dtW2 : DateTime := ⟨2024, 1, 1, 0, 0, 0, 0⟩

def conflictA : PhotoConflict :=
  { type := "metadata_mismatch", description := "filename differs"
    services := ["google-photos"], resolution_required := true, details := none }

def conflictB : PhotoConflict :=
  { type := "visibility_conflict", description := "visibility differs"
    services := ["google-photos"], resolution_required := true, details := none }

def photoW : Photo :=
  { photo_id := "abc123"
    content_hash := some "deadbeef"
    metadata := { taken_date := some dtW }
    conflicts := [conflictA, conflictB]
    created_at := dtW2
    updated_at := dtW2 }

/-! ### C7 -/

/-- **C7.** `has_unresolved_conflicts` is true iff some conflict has
`resolution_required`; `resolve_conflict` at a valid index clears exactly
that conflict's `resolution_required` flag and leaves every other conflict
unchanged. -/
theorem C7_conflict_resolution (p : Photo) :
    (p.has_unresolved_conflicts = true ↔
      ∃ c ∈ p.conflicts, c.resolution_required = true) ∧
    (∀ (i : Nat) (now : DateTime), i < p.conflicts.length →
      ((p.resolve_conflict i now).conflicts[i]?.map
          (fun c => c.resolution_required) = some false ∧
        ∀ j : Nat, j ≠ i →
          (p.resolve_conflict i now).conflicts[j]? = p.conflicts[j]?)) := by
  constructor
  · simp [Photo.has_unresolved_conflicts, List.any_eq_true]
  · intro i now hi
    have hcond : 0 ≤ (i : Int) ∧ (i : Int) < (p.conflicts.length : Int) := by
      constructor <;> omega
    rw [Photo.resolve_conflict, if_pos hcond]
    have htn : (i : Int).toNat = i := Int.toNat_natCast i
    constructor
    · rw [htn, modifyIdx_getElem_self, List.getElem?_eq_getElem hi]
      simp
    · intro j hj
      rw [htn, modifyIdx_getElem_ne _ _ _ _ hj]

/-- Witness for C7 at a concrete photo with two unresolved conflicts,
resolving index 0. -/
theorem C7_witness :
    ((photoW.resolve_conflict 0 dtW).conflicts[0]?.map
        (fun c => c.resolution_required) = some false) ∧
    (photoW.resolve_conflict 0 dtW).conflicts[1]? = photoW.conflicts[1]? := by
  have h := (C7_conflict_resolution photoW).2 0 dtW (by decide)
  exact ⟨h.1, h.2 1 (by decide)⟩

/-! ### C9 -/

/-- **C9.** `resolve_conflict` at any index outside `[0, len(conflicts))`
(negative or too large) is a total silent no-op: the photo — all conflict
flags and `updated_at` included — is returned entirely unchanged and no
error is raised. -/
theorem C9_resolve_out_of_range (p : Photo) (i : Int) (now : DateTime)
    (h : i < 0 ∨ (p.conflicts.length : Int) ≤ i) :
    p.resolve_conflict i now = p := by
  rw [Photo.resolve_conflict, if_neg]
  omega

/-- Witness for C9: resolving index -1 on a photo with two conflicts leaves
it unchanged. -/
theorem C9_witness : photoW.resolve_conflict (-1) dtW = photoW :=
  C9_resolve_out_of_range photoW (-1) dtW (Or.inl (by decide))

/-! ### C8 -/

/-- **C8.** The metadata file path is the pure function
`base/photos/<year>/<two-digit month>/<photo_id>.json` of `taken_date`
(falling back to `created_at`) and `photo_id`: (i) the path formula; (ii)
determinism in those inputs; (iii) the `2024-03-15`/`abc123` scenario;
(iv) photos sharing the effective year and month share a directory; (v)
distinct `photo_id`s give distinct filenames. -/
theorem C8_metadata_file_path :
    (∀ (p : Photo) (base : FsPath),
      p.get_metadata_file_path base =
        base ++ ["photos", toString (p.metadata.taken_date.getD p.created_at).year,
          month2 (p.metadata.taken_date.getD p.created_at).month,
          p.photo_id ++ ".json"]) ∧
    (∀ (p q : Photo) (base : FsPath),
      p.metadata.taken_date = q.metadata.taken_date → p.created_at = q.created_at →
      p.photo_id = q.photo_id →
      p.get_metadata_file_path base = q.get_metadata_file_path base) ∧
    (∀ (p : Photo) (base : FsPath),
      p.metadata.taken_date = some ⟨2024, 3, 15, 0, 0, 0, 0⟩ → p.photo_id = "abc123" →
      p.get_metadata_file_path base = base ++ ["photos", "2024", "03", "abc123.json"]) ∧
    (∀ (p q : Photo) (base : FsPath),
      (p.metadata.taken_date.getD p.created_at).year =
        (q.metadata.taken_date.getD q.created_at).year →
      (p.metadata.taken_date.getD p.created_at).month =
        (q.metadata.taken_date.getD q.created_at).month →
      (p.get_metadata_file_path base).dropLast = (q.get_metadata_file_path base).dropLast) ∧
    (∀ (p q : Photo) (base base' : FsPath), p.photo_id ≠ q.photo_id →
      (p.get_metadata_file_path base).getLast? ≠ (q.get_metadata_file_path base').getLast?) := by
  have hsplit : ∀ (base : FsPath) (a b c d : String),
      base ++ [a, b, c, d] = (base ++ [a, b, c]) ++ [d] := by
    intro base a b c d; simp
  refine ⟨fun p base => rfl, ?_, ?_, ?_, ?_⟩
  · intro p q base h1 h2 h3
    simp [Photo.get_metadata_file_path, h1, h2, h3]
  · intro p base h1 h2
    rw [Photo.get_metadata_file_path]
    rw [h1, h2]
    simp only [Option.getD_some]
    exact congrArg (fun l => base ++ l) (by decide)
  · intro p q base h1 h2
    rw [Photo.get_metadata_file_path, Photo.get_metadata_file_path]
    rw [hsplit, hsplit, List.dropLast_concat, List.dropLast_concat, h1, h2]
  · intro p q base base' hne
    rw [Photo.get_metadata_file_path, Photo.get_metadata_file_path]
    rw [hsplit, hsplit, List.getLast?_concat, List.getLast?_concat]
    intro h
    exact hne (string_append_right_cancel ".json" (Option.some.inj h))

/-- Witness for C8: the scenario conjunct evaluated at a photo with
`taken_date = 2024-03-15` and `photo_id = "abc123"`. -/
theorem C8_witness :
    photoW.get_metadata_file_path [] = ["photos", "2024", "03", "abc123.json"] :=
  C8_metadata_file_path.2.2.1 photoW [] rfl rfl

/-! ### C4 -/

/-- **C4.** With a loaded schema, if validation of a photo fails then
`save_photo` returns `False`, performs no filesystem write (the filesystem
is returned exactly as it was) and does not touch the cache (the manager is
returned exactly as it was). -/
theorem C4_save_rejects_invalid (base : FsPath) (sch : PhotoDict → List String)
    (cache : List (String × Photo)) (fs : FS) (photo : Photo)
    (herr : sch photo.to_dict ≠ []) :
    PhotoManager.save_photo ⟨base, some sch, cache⟩ fs photo true =
      (false, ⟨base, some sch, cache⟩, fs) := by
  have h1 : (sch photo.to_dict).isEmpty = false := by
    cases hh : sch photo.to_dict with
    | nil => exact absurd hh herr
    | cons a l => rfl
  simp [PhotoManager.save_photo, PhotoManager.validate_photo, h1]

/-- A schema that rejects every photo, for the C4 witness. -/
def schemaRejecting : PhotoDict → List String :=
  fun _ => ["'content_hash' is a required property"]

/-- Witness for C4 at a concrete failing schema: the save fails and both
the manager and the filesystem come back unchanged. -/
theorem C4_witness :
    PhotoManager.save_photo ⟨["repo"], some schemaRejecting, []⟩ ⟨[]⟩ photoW true =
      (false, ⟨["repo"], some schemaRejecting, []⟩, ⟨[]⟩) :=
  C4_save_rejects_invalid ["repo"] schemaRejecting [] ⟨[]⟩ photoW (by simp [schemaRejecting])

/-! ### C3 -/

theorem photoQuality_ofValue_value (q : PhotoQuality) :
    PhotoQuality.ofValue q.value = some q := by cases q <;> rfl

theorem visibilityLevel_ofValue_value (v : VisibilityLevel) :
    VisibilityLevel.ofValue v.value = some v := by cases v <;> rfl

theorem processingState_ofValue_value (s : ProcessingState) :
    ProcessingState.ofValue s.value = some s := by cases s <;> rfl

theorem serviceInstance_from_to_dict (s : ServiceInstance) :
    ServiceInstance.from_dict s.to_dict = some s := by
  cases s
  simp [ServiceInstance.to_dict, ServiceInstance.from_dict, photoQuality_ofValue_value]

theorem location_from_to_dict (l : Location) : Location.from_dict l.to_dict = l := rfl

theorem cameraInfo_from_to_dict (c : CameraInfo) : CameraInfo.from_dict c.to_dict = c := rfl

theorem photoMetadata_from_to_dict (m : PhotoMetadata) :
    PhotoMetadata.from_dict m.to_dict = m := by
  cases m with
  | mk td fn loc tags cap ci dim fsz =>
    simp only [PhotoMetadata.to_dict, PhotoMetadata.from_dict, Option.map_map]
    cases loc <;> cases ci <;> rfl

theorem visibilityDiscrepancy_from_to_dict (v : VisibilityDiscrepancy) :
    VisibilityDiscrepancy.from_dict v.to_dict = some v := by
  cases v
  simp [VisibilityDiscrepancy.to_dict, VisibilityDiscrepancy.from_dict,
    visibilityLevel_ofValue_value]

theorem mapM_map_roundtrip {α β : Type} (f : α → β) (g : β → Option α)
    (l : List α) (h : ∀ x ∈ l, g (f x) = some x) :
    (l.map f).mapM g = some l := by
  induction l with
  | nil => rfl
  | cons a as ih =>
      simp only [List.map_cons, List.mapM_cons]
      rw [h a (by simp), ih (fun x hx => h x (by simp [hx]))]
      rfl

theorem photoVisibility_from_to_dict (v : PhotoVisibility) :
    PhotoVisibility.from_dict v.to_dict = some v := by
  cases v with
  | mk can ps disc =>
    simp only [PhotoVisibility.to_dict, PhotoVisibility.from_dict]
    rw [visibilityLevel_ofValue_value,
      mapM_map_roundtrip _ _ ps
        (by intro x _; cases x with | mk k lv => simp [visibilityLevel_ofValue_value]),
      mapM_map_roundtrip _ _ disc (fun x _ => visibilityDiscrepancy_from_to_dict x)]
    rfl

theorem photoConflict_from_to_dict (c : PhotoConflict) :
    PhotoConflict.from_dict c.to_dict = c := rfl

theorem foldl_dictInsert_eq_append [DecidableEq κ] :
    ∀ (l acc : List (κ × α)), (l.map Prod.fst).Nodup →
      (∀ k, k ∈ l.map Prod.fst → k ∉ acc.map Prod.fst) →
      l.foldl (fun d kv => dictInsert d kv.1 kv.2) acc = acc ++ l
  | [], acc, _, _ => by simp
  | (k, v) :: tl, acc, hnd, hdisj => by
    have hk_not_acc : k ∉ acc.map Prod.fst := hdisj k (by simp)
    have hany : acc.any (fun kv => kv.1 = k) = false := by
      rw [List.any_eq_false]
      intro x hx
      simp only [decide_eq_true_eq]
      intro hxk
      exact hk_not_acc (List.mem_map.mpr ⟨x, hx, hxk⟩)
    have hins : dictInsert acc k v = acc ++ [(k, v)] := by
      rw [dictInsert, hany]
      simp
    have hnd' : (tl.map Prod.fst).Nodup := by
      simpa using hnd.of_cons
    have hknotl : k ∉ tl.map Prod.fst := by
      have := hnd
      simp only [List.map_cons, List.nodup_cons] at this
      exact this.1
    have hdisj' : ∀ k', k' ∈ tl.map Prod.fst → k' ∉ (acc ++ [(k, v)]).map Prod.fst := by
      intro k' hk'
      simp only [List.map_append, List.mem_append, List.map_cons, List.map_nil,
        List.mem_singleton, not_or]
      refine ⟨hdisj k' (by simp [hk']), ?_⟩
      intro hkk
      exact hknotl (hkk ▸ hk')
    calc ((k, v) :: tl).foldl (fun d kv => dictInsert d kv.1 kv.2) acc
        = tl.foldl (fun d kv => dictInsert d kv.1 kv.2) (acc ++ [(k, v)]) := by
          rw [List.foldl_cons, hins]
    _ = (acc ++ [(k, v)]) ++ tl := foldl_dictInsert_eq_append tl (acc ++ [(k, v)]) hnd' hdisj'
    _ = acc ++ (k, v) :: tl := by simp

/-- **C3.** Round-trip law: for every (constructible) Photo — `photo_id`
non-empty as the constructor guarantees, `instances` a genuine dict with
distinct keys — deserializing its serialization returns it unchanged,
field for field, whatever fresh uuid and clock reading the reconstruction
draws; optional fields are carried as explicit `none`/null markers, so the
law covers photos with every optional field absent and with all present. -/
theorem C3_serialization_roundtrip (p : Photo) (freshId : String) (now : DateTime)
    (h : p.WF) : Photo.from_dict freshId now p.to_dict = some p := by
  obtain ⟨hid, hnd⟩ := h
  cases p with
  | mk pid ch cs sp inst md vis ps conf ca ua =>
    simp only [Photo.WF] at hid hnd
    simp only [Photo.to_dict, Photo.from_dict, Photo.init]
    rw [mapM_map_roundtrip _ _ inst
      (by
        intro x _
        cases x with
        | mk k si => simp [serviceInstance_from_to_dict])]
    simp only [Option.bind_eq_bind, Option.some_bind]
    rw [photoVisibility_from_to_dict, processingState_ofValue_value]
    simp only [Option.some_bind]
    have hfold : inst.foldl (fun d kv => dictInsert d kv.1 kv.2) [] = inst := by
      have := foldl_dictInsert_eq_append inst [] hnd (by simp)
      simpa using this
    rw [hfold, photoMetadata_from_to_dict]
    have hpid : pyOr (some pid) freshId = pid := by
      simp only [pyOr]
      rw [if_neg hid]
    have hconf : (conf.map PhotoConflict.to_dict).map PhotoConflict.from_dict = conf := by
      rw [List.map_map]
      calc conf.map (PhotoConflict.from_dict ∘ PhotoConflict.to_dict)
          = conf.map id := List.map_congr_left (fun c _ => photoConflict_from_to_dict c)
        _ = conf := List.map_id _
    rw [hconf]
    simp [hpid]

/-- Components of a photo with every optional field populated (C3 witness). -/
def siFull : ServiceInstance :=
  { id := "gp-1", quality := .HIGH, last_sync := some dtW, url := some "https://example.com/x" }

def ciFull : CameraInfo :=
  { make := some "canon", model := some "eos", settings := some [("iso", PyValue.int 100)] }

def mdFull : PhotoMetadata :=
  { taken_date := some dtW
    filename := some "x.jpg"
    location := some ⟨1.5, 2.5, some "somewhere"⟩
    tags := ["a", "a", "b"]
    caption := some "hi"
    camera_info := some ciFull
    dimensions := some [("width", 1920), ("height", 1080)]
    file_size := some 12345 }

def visFull : PhotoVisibility :=
  { canonical := .PUBLIC
    per_service := [("google-photos", .PRIVATE)]
    discrepancies := [⟨"google-photos", .PRIVATE, .PUBLIC⟩] }

/-- A photo with every optional field populated, for the C3 witness. -/
def photoFull : Photo :=
  { photo_id := "full-1"
    content_hash := some "cafebabe"
    canonical_source := some "google-photos:xyz"
    source_of_truth_path := some "/blobs/2024/x.jpg"
    instances := [("google-photos", siFull)]
    metadata := mdFull
    visibility := visFull
    processing_state := .RESOLVED
    conflicts := [conflictA]
    created_at := dtW2
    updated_at := dtW }

/-- Witness for C3: the round-trip at a photo with all optional fields
present (the all-absent side is `photoW`-like by the same theorem). -/
theorem C3_witness :
    Photo.from_dict "fresh-uuid" dtW photoFull.to_dict = some photoFull :=
  C3_serialization_roundtrip photoFull "fresh-uuid" dtW
    ⟨by decide, by decide⟩

/-! ### C6 -/

/-- Loop invariant of the duplicate-grouping fold: keys are distinct
non-empty hashes, each group is exactly the photos of the processed prefix
carrying that hash (hence non-empty), and every non-empty hash seen in the
prefix has a group. -/
def GroupInv (processed : List Photo) (acc : List (String × List Photo)) : Prop :=
  (acc.map Prod.fst).Nodup ∧
  (∀ kv ∈ acc, kv.1 ≠ "" ∧
    kv.2 = processed.filter (fun p => p.content_hash = some kv.1) ∧ kv.2 ≠ []) ∧
  (∀ h : String, h ≠ "" → (∃ p ∈ processed, p.content_hash = some h) →
    ∃ g, (h, g) ∈ acc)

theorem filter_append_skip (processed : List Photo) (photo : Photo) (h : String)
    (hne : photo.content_hash ≠ some h) :
    (processed ++ [photo]).filter (fun p => p.content_hash = some h) =
      processed.filter (fun p => p.content_hash = some h) := by
  rw [List.filter_append]
  simp [List.filter_cons, hne]

theorem filter_append_match (processed : List Photo) (photo : Photo) (h : String)
    (heq : photo.content_hash = some h) :
    (processed ++ [photo]).filter (fun p => p.content_hash = some h) =
      processed.filter (fun p => p.content_hash = some h) ++ [photo] := by
  rw [List.filter_append]
  simp [List.filter_cons, heq]

theorem groupStep_inv {processed : List Photo} {acc : List (String × List Photo)}
    (photo : Photo) (hinv : GroupInv processed acc) :
    GroupInv (processed ++ [photo]) (groupStep acc photo) := by
  obtain ⟨hnd, hentries, hexists⟩ := hinv
  cases hch : photo.content_hash with
  | none =>
    simp only [groupStep, hch]
    refine ⟨hnd, ?_, ?_⟩
    · intro kv hkv
      obtain ⟨h1, h2, h3⟩ := hentries kv hkv
      refine ⟨h1, ?_, h3⟩
      rw [filter_append_skip processed photo kv.1 (by rw [hch]; exact fun hh => by cases hh)]
      exact h2
    · intro h hne hp
      obtain ⟨p, hp, hph⟩ := hp
      rcases List.mem_append.mp hp with hmem | hmem
      · exact hexists h hne ⟨p, hmem, hph⟩
      · have : p = photo := by simpa using hmem
        rw [this, hch] at hph
        cases hph
  | some h =>
    by_cases hh : h = ""
    · subst hh
      simp only [groupStep, hch, if_pos rfl]
      refine ⟨hnd, ?_, ?_⟩
      · intro kv hkv
        obtain ⟨h1, h2, h3⟩ := hentries kv hkv
        refine ⟨h1, ?_, h3⟩
        rw [filter_append_skip processed photo kv.1
          (by rw [hch]; intro heq; exact h1 (Option.some.inj heq).symm)]
        exact h2
      · intro h' hne hp
        obtain ⟨p, hp, hph⟩ := hp
        rcases List.mem_append.mp hp with hmem | hmem
        · exact hexists h' hne ⟨p, hmem, hph⟩
        · have : p = photo := by simpa using hmem
          rw [this, hch] at hph
          exact absurd (Option.some.inj hph).symm hne
    · by_cases hany : acc.any (fun kv => kv.1 = h) = true
      · simp only [groupStep, hch]
        rw [if_neg hh, if_pos hany]
        set F : String × List Photo → String × List Photo :=
          fun kv => if kv.1 = h then (kv.1, kv.2 ++ [photo]) else kv with hF
        have hFkey : ∀ kv, (F kv).1 = kv.1 := by
          intro kv
          by_cases hk : kv.1 = h <;> simp [hF, hk]
        refine ⟨?_, ?_, ?_⟩
        · have : (acc.map F).map Prod.fst = acc.map Prod.fst := by
            rw [List.map_map]
            exact List.map_congr_left (fun kv _ => hFkey kv)
          rw [this]
          exact hnd
        · intro kv' hkv'
          obtain ⟨kv, hkv, hFeq⟩ := List.mem_map.mp hkv'
          obtain ⟨h1, h2, h3⟩ := hentries kv hkv
          by_cases hk : kv.1 = h
          · have hkv'eq : kv' = (kv.1, kv.2 ++ [photo]) := by rw [← hFeq, hF]; simp [hk]
            subst hkv'eq
            refine ⟨h1, ?_, by simp⟩
            simp only
            rw [filter_append_match processed photo kv.1 (by rw [hch, hk]), ← h2]
          · have hkv'eq : kv' = kv := by rw [← hFeq, hF]; simp [hk]
            rw [hkv'eq]
            refine ⟨h1, ?_, h3⟩
            rw [filter_append_skip processed photo kv.1
              (by rw [hch]; intro heq; exact hk (Option.some.inj heq).symm), ← h2]
        · intro h' hne hp
          obtain ⟨p, hp, hph⟩ := hp
          rcases List.mem_append.mp hp with hmem | hmem
          · obtain ⟨g, hg⟩ := hexists h' hne ⟨p, hmem, hph⟩
            refine ⟨(F (h', g)).2, ?_⟩
            have : F (h', g) = (h', (F (h', g)).2) := by
              by_cases hk : h' = h <;> simp [hF, hk]
            rw [← this]
            exact List.mem_map.mpr ⟨(h', g), hg, rfl⟩
          · have hpe : p = photo := by simpa using hmem
            have hh' : h' = h := by
              rw [hpe, hch] at hph
              exact (Option.some.inj hph).symm
            subst hh'
            obtain ⟨kv, hkv, hk⟩ := List.any_eq_true.mp hany
            have hk' : kv.1 = h' := by simpa using hk
            refine ⟨kv.2 ++ [photo], ?_⟩
            have : F kv = (h', kv.2 ++ [photo]) := by simp [hF, hk']
            rw [← this]
            exact List.mem_map.mpr ⟨kv, hkv, rfl⟩
      · simp only [groupStep, hch]
        rw [if_neg hh, if_neg hany]
        have hfresh : ∀ kv ∈ acc, kv.1 ≠ h := by
          have hany2 : acc.any (fun kv => kv.1 = h) = false := by
            rw [← Bool.not_eq_true]; exact hany
          rw [List.any_eq_false] at hany2
          intro kv hkv
          have := hany2 kv hkv
          simpa using this
        refine ⟨?_, ?_, ?_⟩
        · rw [List.map_append]
          simp only [List.map_cons, List.map_nil]
          rw [List.nodup_append]
          refine ⟨hnd, List.nodup_singleton h, ?_⟩
          intro k hk hk'
          have : k = h := by simpa using hk'
          obtain ⟨kv, hkv, hkeq⟩ := List.mem_map.mp hk
          exact hfresh kv hkv (hkeq.trans this)
        · intro kv hkv
          rcases List.mem_append.mp hkv with hmem | hmem
          · obtain ⟨h1, h2, h3⟩ := hentries kv hmem
            refine ⟨h1, ?_, h3⟩
            rw [filter_append_skip processed photo kv.1
              (by rw [hch]; intro heq
                  exact hfresh kv hmem (Option.some.inj heq).symm), ← h2]
          · have hkveq : kv = (h, [photo]) := by simpa using hmem
            subst hkveq
            refine ⟨hh, ?_, by simp⟩
            simp only
            rw [filter_append_match processed photo h hch]
            have hnone : processed.filter (fun p => p.content_hash = some h) = [] := by
              rw [List.filter_eq_nil_iff]
              intro p hp
              simp only [decide_eq_true_eq]
              intro hph
              obtain ⟨g, hg⟩ := hexists h hh ⟨p, hp, hph⟩
              exact hfresh (h, g) hg rfl
            rw [hnone]
            rfl
        · intro h' hne hp
          obtain ⟨p, hp, hph⟩ := hp
          rcases List.mem_append.mp hp with hmem | hmem
          · obtain ⟨g, hg⟩ := hexists h' hne ⟨p, hmem, hph⟩
            exact ⟨g, List.mem_append.mpr (Or.inl hg)⟩
          · have hpe : p = photo := by simpa using hmem
            have hh' : h' = h := by
              rw [hpe, hch] at hph
              exact (Option.some.inj hph).symm
            subst hh'
            exact ⟨[photo], List.mem_append.mpr (Or.inr (by simp))⟩

theorem groupFold_inv : ∀ (rest processed : List Photo) (acc : List (String × List Photo)),
    GroupInv processed acc → GroupInv (processed ++ rest) (rest.foldl groupStep acc)
  | [], processed, acc, hv => by simpa using hv
  | r :: rest, processed, acc, hv => by
      have h1 := groupStep_inv r hv
      have h2 := groupFold_inv rest (processed ++ [r]) (groupStep acc r) h1
      simpa [List.append_assoc] using h2

theorem groupByHash_inv (photos : List Photo) : GroupInv photos (groupByHash photos) := by
  have := groupFold_inv photos [] [] ⟨by simp, by simp, by simp⟩
  simpa [groupByHash] using this

/-- Two photos whose `content_hash` is the *empty string*: Python's
truthiness test `if photo.content_hash:` treats them like hash-less
photos. -/
def photoE1 : Photo :=
  { photo_id := "e1", content_hash := some "", created_at := dtW2, updated_at := dtW2 }

def photoE2 : Photo :=
  { photo_id := "e2", content_hash := some "", created_at := dtW2, updated_at := dtW2 }

/-- **C6 counterexample.** The claim that the keys of `findDuplicates` are
exactly the content hashes shared by more than one photo fails on the
collection `[photoE1, photoE2]`: both photos carry the content hash `""`
(shared by two photos), yet `find_duplicates_of` returns no group at all,
because the code's truthiness test drops empty-string hashes. -/
theorem C6_counterexample :
    ¬ (∀ h : String,
        (∃ kv ∈ find_duplicates_of [photoE1, photoE2], kv.1 = h) ↔
          2 ≤ (List.filter (fun p => p.content_hash = some h) [photoE1, photoE2]).length) := by
  intro hclaim
  have h2 : 2 ≤ (List.filter (fun p => p.content_hash = some "")
      [photoE1, photoE2]).length := by decide
  obtain ⟨kv, hkv, -⟩ := (hclaim "").mpr h2
  have hempty : find_duplicates_of [photoE1, photoE2] = [] := rfl
  rw [hempty] at hkv
  exact List.not_mem_nil kv hkv

/-- **C6 (amended).** For every loaded collection: every returned group has
at least two members; the keys are exactly the *non-empty* content hashes
carried by more than one photo (photos with a `None` **or empty-string**
hash are dropped by the truthiness test and so never counted); and no
photo whose `content_hash` is `None` or the empty string appears in any
group. -/
theorem C6_find_duplicates (photos : List Photo) :
    (∀ kv ∈ find_duplicates_of photos, 2 ≤ kv.2.length) ∧
    (∀ h : String,
      (∃ kv ∈ find_duplicates_of photos, kv.1 = h) ↔
        (h ≠ "" ∧ 2 ≤ (photos.filter (fun p => p.content_hash = some h)).length)) ∧
    (∀ p ∈ photos, (p.content_hash = none ∨ p.content_hash = some "") →
      ∀ kv ∈ find_duplicates_of photos, p ∉ kv.2) := by
  obtain ⟨hnd, hentries, hexists⟩ := groupByHash_inv photos
  have hmem_fd : ∀ kv, kv ∈ find_duplicates_of photos ↔
      kv ∈ groupByHash photos ∧ 1 < kv.2.length := by
    intro kv
    rw [find_duplicates_of, List.mem_filter]
    simp
  refine ⟨?_, ?_, ?_⟩
  · intro kv hkv
    exact (hmem_fd kv).mp hkv |>.2
  · intro h
    constructor
    · rintro ⟨kv, hkv, rfl⟩
      obtain ⟨hg, hlen⟩ := (hmem_fd kv).mp hkv
      obtain ⟨h1, h2, _⟩ := hentries kv hg
      exact ⟨h1, by rw [← h2]; omega⟩
    · rintro ⟨hne, hlen⟩
      have hfil_ne : photos.filter (fun p => p.content_hash = some h) ≠ [] := by
        intro hc; rw [hc] at hlen; simp at hlen
      obtain ⟨p, hp⟩ := List.exists_mem_of_ne_nil _ hfil_ne
      have hp' := List.mem_filter.mp hp
      obtain ⟨g, hg⟩ := hexists h hne ⟨p, hp'.1, by simpa using hp'.2⟩
      obtain ⟨_, h2, _⟩ := hentries (h, g) hg
      refine ⟨(h, g), (hmem_fd (h, g)).mpr ⟨hg, ?_⟩, rfl⟩
      show 1 < g.length
      simp only at h2
      rw [h2]
      omega
  · intro p hp hcase kv hkv hpin
    obtain ⟨hg, _⟩ := (hmem_fd kv).mp hkv
    obtain ⟨h1, h2, _⟩ := hentries kv hg
    rw [h2] at hpin
    have hph : p.content_hash = some kv.1 := by
      simpa using (List.mem_filter.mp hpin).2
    rcases hcase with hnone | hempty
    · rw [hnone] at hph
      cases hph
    · rw [hempty] at hph
      exact h1 (Option.some.inj hph).symm

/-- Photos for the C6 witness: two sharing hash `"deadbeef"`, one with no
hash. -/
def photoA : Photo :=
  { photo_id := "a1", content_hash := some "deadbeef", created_at := dtW2, updated_at := dtW2 }

def photoB : Photo :=
  { photo_id := "b1", content_hash := some "deadbeef", created_at := dtW2, updated_at := dtW2 }

def photoN : Photo :=
  { photo_id := "n1", content_hash := none, created_at := dtW2, updated_at := dtW2 }

/-- Witness for C6 on `[photoA, photoB, photoN, photoE1]`: `"deadbeef"`
(carried twice) is a key, and neither the hash-less photo nor the
empty-string-hashed photo is in any group. -/
theorem C6_witness :
    (∃ kv ∈ find_duplicates_of [photoA, photoB, photoN, photoE1], kv.1 = "deadbeef") ∧
    (∀ kv ∈ find_duplicates_of [photoA, photoB, photoN, photoE1], photoN ∉ kv.2) ∧
    (∀ kv ∈ find_duplicates_of [photoA, photoB, photoN, photoE1], photoE1 ∉ kv.2) :=
  ⟨((C6_find_duplicates [photoA, photoB, photoN, photoE1]).2.1 "deadbeef").mpr
      ⟨by decide, by decide⟩,
    (C6_find_duplicates [photoA, photoB, photoN, photoE1]).2.2 photoN (by simp)
      (Or.inl rfl),
    (C6_find_duplicates [photoA, photoB, photoN, photoE1]).2.2 photoE1 (by simp)
      (Or.inr rfl)⟩

/-! ### C5 -/

theorem find?_map_update [DecidableEq κ] (l : List (κ × α)) (k : κ) (v : α)
    (hany : l.any (fun kv => kv.1 = k) = true) :
    (l.map (fun kv => if kv.1 = k then (k, v) else kv)).find?
      (fun kv => kv.1 = k) = some (k, v) := by
  induction l with
  | nil => simp at hany
  | cons hd tl ih =>
    by_cases hk : hd.1 = k
    · simp only [List.map_cons, if_pos hk]
      exact List.find?_cons_of_pos _ (by simp)
    · simp only [List.map_cons, if_neg hk]
      rw [List.find?_cons_of_neg _ (by simpa using hk)]
      refine ih ?_
      rcases List.any_eq_true.mp hany with ⟨x, hx, hpx⟩
      rcases List.mem_cons.mp hx with rfl | hx'
      · exact absurd (by simpa using hpx) hk
      · exact List.any_eq_true.mpr ⟨x, hx', hpx⟩

theorem dictInsert_find?_self [DecidableEq κ] (l : List (κ × α)) (k : κ) (v : α) :
    (dictInsert l k v).find? (fun kv => kv.1 = k) = some (k, v) := by
  rw [dictInsert]
  by_cases hany : l.any (fun kv => kv.1 = k) = true
  · rw [if_pos hany]
    exact find?_map_update l k v hany
  · rw [if_neg hany, List.find?_append]
    have hnone : l.find? (fun kv => kv.1 = k) = none := by
      rw [List.find?_eq_none]
      intro x hx hpx
      exact hany (List.any_eq_true.mpr ⟨x, hx, hpx⟩)
    rw [hnone]
    simp

theorem dictInsert_find?_ne [DecidableEq κ] (l : List (κ × α)) (k k' : κ) (v : α)
    (hne : k' ≠ k) :
    (dictInsert l k v).find? (fun kv => kv.1 = k') =
      l.find? (fun kv => kv.1 = k') := by
  rw [dictInsert]
  by_cases hany : l.any (fun kv => kv.1 = k) = true
  · rw [if_pos hany]
    clear hany
    induction l with
    | nil => rfl
    | cons hd tl ih =>
      by_cases hk : hd.1 = k
      · simp only [List.map_cons, if_pos hk]
        rw [List.find?_cons_of_neg _ (by simp; exact fun hh => hne hh.symm),
          List.find?_cons_of_neg _ (by simp; exact fun hh => hne (hh.symm.trans hk))]
        exact ih
      · simp only [List.map_cons, if_neg hk]
        by_cases hk' : hd.1 = k'
        · rw [List.find?_cons_of_pos _ (by simpa using hk'),
            List.find?_cons_of_pos _ (by simpa using hk')]
        · rw [List.find?_cons_of_neg _ (by simpa using hk'),
            List.find?_cons_of_neg _ (by simpa using hk')]
          exact ih
  · rw [if_neg hany, List.find?_append]
    have : ([(k, v)].find? fun kv => kv.1 = k') = none := by
      simp [Ne.symm hne]
    rw [this]
    simp

/-- **C5 counterexample.** The save of a concrete photo into an empty
filesystem is not crash-safe at its computed path: interrupting after the
`open(file_path, 'w')` truncation and before the `json.dump` completes
leaves a truncated, half-written file at that path. -/
theorem C5_counterexample : ¬ crashSafeSave photoW ["repo"] ⟨[]⟩ := by
  intro h
  exact h 2 rfl

/-- **C5 (amended).** `save_to_file` is *not* atomic-per-file: it performs
exactly mkdir-parents, then an in-place `open`-truncate of the final
computed path, then the document write — no temp file and no rename — so
for every photo, base path and starting filesystem, the crash point after
the truncation leaves the computed path holding a truncated file rather
than either the old content or the complete document. -/
theorem C5_save_not_atomic (p : Photo) (base : FsPath) (fs : FS) :
    p.save_to_file_events base =
      [FSEvent.mkdirParents (p.get_metadata_file_path base).dropLast,
        FSEvent.openTrunc (p.get_metadata_file_path base),
        FSEvent.writeDoc (p.get_metadata_file_path base) p.to_dict] ∧
    (applyEvents fs ((p.save_to_file_events base).take 2)).lookup
      (p.get_metadata_file_path base) = some .truncated := by
  refine ⟨rfl, ?_⟩
  show (FS.mk (dictInsert fs.files (p.get_metadata_file_path base) .truncated)).lookup
    (p.get_metadata_file_path base) = some .truncated
  rw [FS.lookup, dictInsert_find?_self]
  rfl

/-! ### C1 -/

/-- The precedence §4.3 step 1 of the spec asserts, taken literally:
explicit caller-supplied `--since` first, the full-scan override second,
then the persisted checkpoint, then none. (Spec-side definition, for
comparison against the code's `effectiveSince`.) -/
def effectiveSinceSpecOrder (a : DiscoverArgs) (last_discovery_str : Option String) :
    Option Nat :=
  if pyTruthy a.since_arg then a.parseSinceArg (a.since_arg.getD "")
  else if a.full_scan_arg then none
  else if pyTruthy last_discovery_str then a.parseIso (last_discovery_str.getD "")
  else none

/-- A concrete invocation supplying both `--since 2024-01-01` (which parses
to instant 100) and `--full-scan`. -/
def argsBoth : DiscoverArgs :=
  { parseSinceArg := fun s => if s = "2024-01-01" then some 100 else none
    parseIso := fun _ => none
    since_arg := some "2024-01-01"
    full_scan_arg := true }

/-- **C1 counterexample.** When both an explicit `--since` (parsing to
instant 100) and `--full-scan` are supplied, the code computes
`since = none` — the full-scan override wins — whereas the claimed
precedence (explicit timestamp first) computes `some 100`. -/
theorem C1_counterexample :
    effectiveSince argsBoth none = none ∧
    effectiveSinceSpecOrder argsBoth none = some 100 ∧
    argsBoth.full_scan_arg = true ∧ argsBoth.since_arg = some "2024-01-01" :=
  ⟨rfl, rfl, rfl, rfl⟩

/-- **C1 (amended).** The precedence the code implements — cli.py lines
377-401: the full-scan override is tested first and forces `since = none`
even when an explicit `--since` is supplied; otherwise a truthy `--since`
is parsed and its result used directly (parse failure gives `none`, with
no fallback to the persisted checkpoint); otherwise the persisted
`last_discovery` is parsed when truthy (invalid format giving `none`);
otherwise `none` for a first-ever scan. -/
theorem C1_effective_since (a : DiscoverArgs) (last : Option String) :
    (a.full_scan_arg = true → effectiveSince a last = none) ∧
    (a.full_scan_arg = false → ∀ s, a.since_arg = some s → s ≠ "" →
      effectiveSince a last = a.parseSinceArg s) ∧
    (a.full_scan_arg = false → pyTruthy a.since_arg = false →
      ∀ t, last = some t → t ≠ "" → effectiveSince a last = a.parseIso t) ∧
    (a.full_scan_arg = false → pyTruthy a.since_arg = false → pyTruthy last = false →
      effectiveSince a last = none) := by
  refine ⟨?_, ?_, ?_, ?_⟩
  · intro hfs
    simp [effectiveSince, hfs]
  · intro hfs s hsince hs
    simp [effectiveSince, hfs, hsince, pyTruthy, hs]
  · intro hfs hsince t hlast ht
    have hpt : pyTruthy (some t) = true := by simp [pyTruthy, ht]
    simp [effectiveSince, hfs, hsince, hlast, hpt]
  · intro hfs hsince hlast
    simp [effectiveSince, hfs, hsince, hlast]

/-- A concrete invocation with only `--since 2024-01-01` (no full scan). -/
def argsSinceOnly : DiscoverArgs :=
  { parseSinceArg := fun s => if s = "2024-01-01" then some 100 else none
    parseIso := fun _ => some 7
    since_arg := some "2024-01-01"
    full_scan_arg := false }

/-- Witness for C1 (amended) at concrete invocations: with `--full-scan`
the result is `none` even though `--since` parses; without it the parsed
`--since` wins over a persisted checkpoint. -/
theorem C1_witness :
    effectiveSince argsBoth (some "50") = none ∧
    effectiveSince argsSinceOnly (some "50") = argsSinceOnly.parseSinceArg "2024-01-01" :=
  ⟨(C1_effective_since argsBoth (some "50")).1 rfl,
    (C1_effective_since argsSinceOnly (some "50")).2.1 rfl "2024-01-01" rfl (by decide)⟩

/-! ### C10 -/

/-- **C10.** Cache shadowing of `load_all_photos`: (i) whenever the cache
is non-empty, `load_all_photos` with `use_cache` returns exactly the cached
photos, leaves the manager untouched, and never reads storage (the result
is the same for any two filesystems); (ii) saving one photo through a
freshly constructed repository (no schema, empty cache) succeeds and makes
a subsequent cached `load_all_photos` return only that photo, whatever
else is on disk; (iii) `load_all_photos` with `use_cache = false` really
rebuilds from storage: every parseable `photos/**/*.json` document on disk
contributes its photo to the result. -/
theorem C10_cache_shadowing (freshId : String) (now : DateTime) :
    (∀ (m : PhotoManager) (fs fs' : FS), m.photo_cache ≠ [] →
      m.load_all_photos fs freshId now true = (m.photo_cache.map Prod.snd, m) ∧
      m.load_all_photos fs freshId now true = m.load_all_photos fs' freshId now true) ∧
    (∀ (base : FsPath) (fs0 : FS) (photo : Photo),
      (PhotoManager.mk0 base).save_photo fs0 photo true =
        (true, { PhotoManager.mk0 base with photo_cache := [(photo.photo_id, photo)] },
          photo.save_to_file base fs0) ∧
      ∀ fsAny : FS,
        ({ PhotoManager.mk0 base with
            photo_cache := [(photo.photo_id, photo)] } : PhotoManager).load_all_photos
          fsAny freshId now true =
          ([photo], { PhotoManager.mk0 base with
            photo_cache := [(photo.photo_id, photo)] })) ∧
    (∀ (m : PhotoManager) (fs : FS) (path : FsPath) (c : FileContent)
        (d : PhotoDict) (q : Photo),
      (path, c) ∈ fs.files → matchesJsonGlob m.photos_dir path = true →
      fs.lookup path = some (.doc d) → Photo.from_dict freshId now d = some q →
      q ∈ (m.load_all_photos fs freshId now false).1) := by
  have hcached : ∀ (m : PhotoManager) (fs : FS), m.photo_cache ≠ [] →
      m.load_all_photos fs freshId now true = (m.photo_cache.map Prod.snd, m) := by
    intro m fs hne
    rw [PhotoManager.load_all_photos, if_pos]
    simp [List.isEmpty_iff, hne]
  refine ⟨?_, ?_, ?_⟩
  · intro m fs fs' hne
    exact ⟨hcached m fs hne, (hcached m fs hne).trans (hcached m fs' hne).symm⟩
  · intro base fs0 photo
    constructor
    · rw [PhotoManager.save_photo, if_neg]
      · rfl
      · simp [PhotoManager.mk0, PhotoManager.validate_photo]
    · intro fsAny
      exact hcached _ fsAny (by simp)
  · intro m fs path c d q hmem hglob hlook hparse
    rw [PhotoManager.load_all_photos, if_neg (by simp)]
    simp only
    refine List.mem_filterMap.mpr ⟨(path, c), List.mem_filter.mpr ⟨hmem, by simpa⟩, ?_⟩
    rw [Photo.load_from_file, hlook]
    exact hparse

/-- A minimal photo and its serialized document, placed on disk for the
C10 witness. -/
def photoQ : Photo :=
  { photo_id := "q1", created_at := dtW2, updated_at := dtW2 }

def dictQ : PhotoDict := photoQ.to_dict

def diskW : FS := ⟨[(["repo", "photos", "2024", "01", "q1.json"], .doc dictQ)]⟩

/-- Witness for C10: a freshly constructed manager over `["repo"]`, one
photo saved into a disk that already holds `photoQ`'s document; the cached
`load_all_photos` returns only the saved photo, while an uncached load
sees `photoQ` on disk. -/
theorem C10_witness :
    (({ PhotoManager.mk0 ["repo"] with
        photo_cache := [(photoW.photo_id, photoW)] } : PhotoManager).load_all_photos
      diskW "u" dtW true =
      ([photoW], { PhotoManager.mk0 ["repo"] with
        photo_cache := [(photoW.photo_id, photoW)] })) ∧
    photoQ ∈ ((PhotoManager.mk0 ["repo"]).load_all_photos diskW "u" dtW false).1 := by
  constructor
  · exact ((C10_cache_shadowing "u" dtW).2.1 ["repo"] diskW photoW).2 diskW
  · exact (C10_cache_shadowing "u" dtW).2.2 (PhotoManager.mk0 ["repo"]) diskW
      ["repo", "photos", "2024", "01", "q1.json"] (.doc dictQ) dictQ photoQ
      (by simp [diskW]) (by decide) rfl rfl

/-! ### C2 -/

/-- The loaded schema (if any) accepts the photo: the validation mode under
which a save cannot fail. -/
def schemaAccepts (schema : Option (PhotoDict → List String)) (p : Photo) : Prop :=
  ∀ sch, schema = some sch → sch p.to_dict = []

theorem save_photo_fields (m : PhotoManager) (fs : FS) (p : Photo) (v : Bool) :
    (m.save_photo fs p v).2.1.schema = m.schema ∧
    (m.save_photo fs p v).2.1.metadata_repo_path = m.metadata_repo_path := by
  rw [PhotoManager.save_photo]
  split <;> exact ⟨rfl, rfl⟩

theorem save_photo_success (m : PhotoManager) (fs : FS) (p : Photo)
    (h : schemaAccepts m.schema p) : (m.save_photo fs p true).1 = true := by
  have hv : m.validate_photo p = [] := by
    rw [PhotoManager.validate_photo]
    cases hs : m.schema with
    | none => rfl
    | some sch => exact h sch hs
  rw [PhotoManager.save_photo, hv]
  simp

theorem savePhotosLoop_schema : ∀ (l : List Photo) (m : PhotoManager) (fs : FS),
    (savePhotosLoop m fs l).1.schema = m.schema
  | [], _, _ => rfl
  | p :: rest, m, fs => by
    rw [savePhotosLoop]
    simp only
    rw [savePhotosLoop_schema rest _ _, (save_photo_fields m fs p true).1]

theorem savePhotosLoop_count : ∀ (l : List Photo) (m : PhotoManager) (fs : FS),
    (∀ p ∈ l, schemaAccepts m.schema p) → (savePhotosLoop m fs l).2.2 = l.length
  | [], _, _, _ => rfl
  | p :: rest, m, fs, h => by
    rw [savePhotosLoop]
    simp only
    rw [save_photo_success m fs p (h p (by simp))]
    have hrest := savePhotosLoop_count rest (m.save_photo fs p true).2.1
      (m.save_photo fs p true).2.2
      (by
        intro q hq
        rw [(save_photo_fields m fs p true).1]
        exact h q (by simp [hq]))
    rw [hrest]
    simp [Nat.add_comm]

theorem stepService_t (a : DiscoverArgs) (acc : DiscoverAcc) (job : ServiceJob) :
    (stepService a acc job).t = acc.t + job.elapsed := by
  rw [stepService]
  split <;> rfl

theorem stepService_schema (a : DiscoverArgs) (acc : DiscoverAcc) (job : ServiceJob) :
    (stepService a acc job).mgr.schema = acc.mgr.schema := by
  rw [stepService]
  split <;> exact savePhotosLoop_schema _ _ _

theorem stepService_processedAny (a : DiscoverArgs) (acc : DiscoverAcc) (job : ServiceJob)
    (h : acc.processedAny = true) : (stepService a acc job).processedAny = true := by
  rw [stepService]
  split
  · exact h
  · rfl

theorem stepService_entry_ne (a : DiscoverArgs) (acc : DiscoverAcc) (job : ServiceJob)
    (name : String) (h : name ≠ job.name) :
    (stepService a acc job).sync.serviceEntry name = acc.sync.serviceEntry name := by
  rw [stepService]
  split
  · rfl
  · simp only [SyncState.serviceEntry]
    rw [dictInsert_find?_ne _ _ _ _ h]

theorem discoverLoop_entry_ne (a : DiscoverArgs) :
    ∀ (jobs : List ServiceJob) (acc : DiscoverAcc) (name : String),
      (∀ j ∈ jobs, j.name ≠ name) →
      (discoverLoop a acc jobs).sync.serviceEntry name = acc.sync.serviceEntry name
  | [], _, _, _ => rfl
  | job :: rest, acc, name, h => by
    rw [discoverLoop,
      discoverLoop_entry_ne a rest _ name (fun j hj => h j (by simp [hj]))]
    exact stepService_entry_ne a acc job name (fun he => h job (by simp) he.symm)

theorem discoverLoop_t_le (a : DiscoverArgs) :
    ∀ (jobs : List ServiceJob) (acc : DiscoverAcc), acc.t ≤ (discoverLoop a acc jobs).t
  | [], _ => le_refl _
  | job :: rest, acc => by
    rw [discoverLoop]
    calc acc.t ≤ (stepService a acc job).t := by rw [stepService_t]; omega
      _ ≤ _ := discoverLoop_t_le a rest _

theorem discoverLoop_schema (a : DiscoverArgs) :
    ∀ (jobs : List ServiceJob) (acc : DiscoverAcc),
      (discoverLoop a acc jobs).mgr.schema = acc.mgr.schema
  | [], _ => rfl
  | job :: rest, acc => by
    rw [discoverLoop, discoverLoop_schema a rest, stepService_schema]

theorem discoverLoop_processedAny (a : DiscoverArgs) :
    ∀ (jobs : List ServiceJob) (acc : DiscoverAcc), acc.processedAny = true →
      (discoverLoop a acc jobs).processedAny = true
  | [], _, h => h
  | job :: rest, acc, h => by
    rw [discoverLoop]
    exact discoverLoop_processedAny a rest _ (stepService_processedAny a acc job h)

theorem discoverLoop_append (a : DiscoverArgs) :
    ∀ (l1 l2 : List ServiceJob) (acc : DiscoverAcc),
      discoverLoop a acc (l1 ++ l2) = discoverLoop a (discoverLoop a acc l1) l2
  | [], _, _ => rfl
  | j :: rest, l2, acc => by
    rw [List.cons_append, discoverLoop, discoverLoop, discoverLoop_append a rest l2 _]

theorem serviceEntry_insert_self (st : SyncState) (name : String) (e : SyncEntry) :
    ({ st with services := dictInsert st.services name e } : SyncState).serviceEntry name
      = e := by
  simp only [SyncState.serviceEntry]
  rw [dictInsert_find?_self]
  rfl

theorem stepService_not_raised (a : DiscoverArgs) (acc : DiscoverAcc) (job : ServiceJob)
    (run : AdapterRun)
    (hrun : job.adapter (effectiveSince a
      (acc.sync.serviceEntry job.name).last_discovery) = run)
    (h : run.raised = false) :
    stepService a acc job =
      DiscoverAcc.mk (savePhotosLoop acc.mgr acc.fs run.yielded).1
        (savePhotosLoop acc.mgr acc.fs run.yielded).2.1
        (SyncState.mk
          (dictInsert acc.sync.services job.name
            (SyncEntry.mk (some (isoNat (acc.t + job.elapsed)))
              (some (savePhotosLoop acc.mgr acc.fs run.yielded).2.2)))
          acc.sync.last_discovery)
        (acc.t + job.elapsed)
        (acc.overall + (savePhotosLoop acc.mgr acc.fs run.yielded).2.2)
        true := by
  rw [stepService]
  simp only [hrun]
  rw [if_neg]
  rw [h]
  exact Bool.false_ne_true

theorem stepService_raised (a : DiscoverArgs) (acc : DiscoverAcc) (job : ServiceJob)
    (run : AdapterRun)
    (hrun : job.adapter (effectiveSince a
      (acc.sync.serviceEntry job.name).last_discovery) = run)
    (h : run.raised = true) :
    (stepService a acc job).sync = acc.sync ∧
    (stepService a acc job).processedAny = acc.processedAny := by
  rw [stepService]
  simp only [hrun]
  rw [if_pos h]
  exact ⟨rfl, rfl⟩

theorem serviceEntry_set_last (st : SyncState) (x : Option String) (name : String) :
    ({ st with last_discovery := x } : SyncState).serviceEntry name =
      st.serviceEntry name := rfl

/-- **C2.** Checkpointing of one discovery run over the services
`pre ++ job :: post` (with `job`'s name occurring only there), starting at
clock instant `t0`, for a service with no prior `last_discovery`:
(i) if the adapter's iteration completes without raising and every yielded
photo passes validation (zero save failures), the persisted sync state
records for that service `last_discovered_count = N` (the number of yielded
photos) and a `last_discovery` timestamp `ts ≥ t0`;
(ii) if the adapter raises mid-scan, the service's persisted entry — both
`last_discovery` and `last_discovered_count` — is exactly its pre-run
value, so the old checkpoint is retained. -/
theorem C2_discovery_checkpoint (a : DiscoverArgs) (mgr : PhotoManager) (fs : FS)
    (sync0 : SyncState) (pre post : List ServiceJob) (job : ServiceJob)
    (t0 elapsedEnd : Nat)
    (hpre : ∀ j ∈ pre, j.name ≠ job.name) (hpost : ∀ j ∈ post, j.name ≠ job.name)
    (hfresh : (sync0.serviceEntry job.name).last_discovery = none) :
    ((job.adapter (effectiveSince a none)).raised = false →
      (∀ p ∈ (job.adapter (effectiveSince a none)).yielded, schemaAccepts mgr.schema p) →
      ∃ ts, t0 ≤ ts ∧
        (discover_photos a mgr fs sync0 (pre ++ job :: post) t0
            elapsedEnd).persisted.serviceEntry job.name =
          SyncEntry.mk (some (isoNat ts))
            (some (job.adapter (effectiveSince a none)).yielded.length)) ∧
    ((job.adapter (effectiveSince a none)).raised = true →
      (discover_photos a mgr fs sync0 (pre ++ job :: post) t0
          elapsedEnd).persisted.serviceEntry job.name = sync0.serviceEntry job.name) := by
  have hacc1entry :
      (discoverLoop a ⟨mgr, fs, sync0, t0, 0, false⟩ pre).sync.serviceEntry job.name
        = sync0.serviceEntry job.name :=
    discoverLoop_entry_ne a pre _ job.name hpre
  set acc1 := discoverLoop a ⟨mgr, fs, sync0, t0, 0, false⟩ pre with hacc1def
  have hrunArg : job.adapter (effectiveSince a
      (acc1.sync.serviceEntry job.name).last_discovery)
      = job.adapter (effectiveSince a none) := by
    rw [hacc1entry, hfresh]
  have hloopsplit : discoverLoop a ⟨mgr, fs, sync0, t0, 0, false⟩ (pre ++ job :: post)
      = discoverLoop a (stepService a acc1 job) post := by
    rw [discoverLoop_append, ← hacc1def, discoverLoop]
  have hschema1 : acc1.mgr.schema = mgr.schema := discoverLoop_schema a pre _
  have ht1 : t0 ≤ acc1.t := by
    rw [hacc1def]
    exact discoverLoop_t_le a pre ⟨mgr, fs, sync0, t0, 0, false⟩
  constructor
  · intro hraised hval
    have hstep := stepService_not_raised a acc1 job _ hrunArg hraised
    have hcnt : (savePhotosLoop acc1.mgr acc1.fs
        (job.adapter (effectiveSince a none)).yielded).2.2
        = (job.adapter (effectiveSince a none)).yielded.length := by
      apply savePhotosLoop_count
      intro p hp
      rw [hschema1]
      exact hval p hp
    set acc2 := stepService a acc1 job with hacc2def
    have hacc2sync : acc2.sync.serviceEntry job.name
        = SyncEntry.mk (some (isoNat (acc1.t + job.elapsed)))
            (some (job.adapter (effectiveSince a none)).yielded.length) := by
      rw [hstep]
      simp only [SyncState.serviceEntry]
      rw [dictInsert_find?_self]
      simp [hcnt]
    have hacc2any : acc2.processedAny = true := by rw [hstep]
    have hacc3entry : (discoverLoop a acc2 post).sync.serviceEntry job.name
        = acc2.sync.serviceEntry job.name := discoverLoop_entry_ne a post _ job.name hpost
    have hacc3any : (discoverLoop a acc2 post).processedAny = true :=
      discoverLoop_processedAny a post _ hacc2any
    refine ⟨acc1.t + job.elapsed, by omega, ?_⟩
    rw [discover_photos]
    simp only [hloopsplit]
    rw [if_pos hacc3any]
    exact (serviceEntry_set_last _ _ _).trans (hacc3entry.trans hacc2sync)
  · intro hraised
    have hstep := stepService_raised a acc1 job _ hrunArg hraised
    set acc2 := stepService a acc1 job with hacc2def
    have hacc2sync : acc2.sync.serviceEntry job.name = sync0.serviceEntry job.name := by
      rw [hstep.1, hacc1entry]
    have hacc3entry : (discoverLoop a acc2 post).sync.serviceEntry job.name
        = acc2.sync.serviceEntry job.name := discoverLoop_entry_ne a post _ job.name hpost
    rw [discover_photos]
    simp only [hloopsplit]
    by_cases hany : (discoverLoop a acc2 post).processedAny = true
    · rw [if_pos hany]
      exact (serviceEntry_set_last _ _ _).trans (hacc3entry.trans hacc2sync)
    · rw [if_neg hany]

/-- A no-filter invocation and a one-service job for the C2 witness. -/
def argsNone : DiscoverArgs :=
  { parseSinceArg := fun _ => none, parseIso := fun _ => none
    since_arg := none, full_scan_arg := false }

def jobW : ServiceJob :=
  { name := "google-photos", adapter := fun _ => ⟨[photoQ], false⟩, elapsed := 5 }

/-- Witness for C2: a run over the single never-scanned service
`google-photos`, whose adapter yields one photo and does not raise, from
instant 10; the persisted entry records count 1 and a timestamp ≥ 10. -/
theorem C2_witness :
    ∃ ts, 10 ≤ ts ∧
      (discover_photos argsNone (PhotoManager.mk0 ["repo"]) ⟨[]⟩ {} [jobW] 10
          3).persisted.serviceEntry "google-photos"
        = SyncEntry.mk (some (isoNat ts)) (some 1) :=
  (C2_discovery_checkpoint argsNone (PhotoManager.mk0 ["repo"]) ⟨[]⟩ {} [] [] jobW 10 3
      (by simp) (by simp) rfl).1 rfl
    (fun p _ sch h => Option.noConfusion h)
